import Mathlib

/-!
Verification of `src/util/mod.rs` of the `cargo-mobile` repository.

Path model: a Rust absolute path is represented by the list of its normal
components after the root (`/a/b/c` is `["a", "b", "c"]`).  Rust's
`Path::starts_with` compares component-wise, `PathBuf::pop` drops the final
component (failing on the bare root), and `Path::strip_prefix` removes a
component-wise prefix; these correspond to `List.isPrefixOf`,
`List.dropLast` and dropping the prefix length on the component lists.
The parent-directory marker `..` pushed by `relativize_path` is kept as the
literal component `".."`.
-/

namespace CargoMobile

/-- Loop body of `common_root`, recursing structurally on the REVERSED
destination candidate, so that `PathBuf::pop` (dropping the last component)
becomes dropping the head of the reversed list. -/
def common_root_go (abs_src : List String) : List String → Option (List String)
  | [] =>
    if List.isPrefixOf [] abs_src then some [] else none
  | x :: tl =>
    if (x :: tl).reverse.isPrefixOf abs_src then some (x :: tl).reverse
    else common_root_go abs_src tl

/-- Embeds `common_root` from `src/util/mod.rs`: starting from `abs_dest`,
repeatedly strip the final component until the result is a component-wise
prefix of `abs_src`.  The `none` result models the `unreachable!` branch,
taken when `pop` fails (the candidate is the bare root, i.e. `[]`) without
the prefix test having succeeded. -/
def common_root (abs_src abs_dest : List String) : Option (List String) :=
  common_root_go abs_src abs_dest.reverse

/-- Embeds `relativize_path` from `src/util/mod.rs`: find the common root,
strip it from both inputs (`strip_prefix(...).unwrap()`), emit one `..`
component per component of the stripped destination, then append the
stripped source.  `none` models a panic (the `unreachable!` inside
`common_root` or a failing `unwrap`). -/
def relativize_path (abs_path abs_relative_to : List String) :
    Option (List String) :=
  match common_root abs_path abs_relative_to with
  | none => none
  | some root =>
    if root.isPrefixOf abs_path ∧ root.isPrefixOf abs_relative_to then
      some (List.replicate (abs_relative_to.drop root.length).length ".."
        ++ abs_path.drop root.length)
    else none

/-- Lexical resolution of a relative path (a list of components, where `".."`
means parent directory) against an absolute directory: `..` drops the final
component of the base (staying at the root when the base is the root), any
other component descends. -/
def resolve (base : List String) : List String → List String
  | [] => base
  | seg :: rest =>
    if seg = ".." then resolve base.dropLast rest
    else resolve (base ++ [seg]) rest

end CargoMobile

namespace CargoMobile

example : common_root ["a", "b", "c"] ["a", "x", "y"] = some ["a"] := by
  decide

example : relativize_path ["a", "b", "c"] ["a", "x", "y"]
    = some ["..", "..", "b", "c"] := by decide

example : relativize_path ["a", "b"] ["a", "b", "c", "d"]
    = some ["..", ".."] := by decide

example : resolve ["a", "x", "y"] ["..", "..", "b", "c"] = ["a", "b", "c"] := by
  decide

example : resolve ["a", "x"] ["..", "..", "b", "c"] = ["b", "c"] := by
  decide

/-! Process model.  An OS error (`std::io::Error`) is abstracted to an
identifying code; a process exit status either carries an exit code or
records termination by a signal (in which case `ExitStatus::code()` returns
`None` and `success()` is false). -/

/-- Abstraction of `std::io::Error`: an opaque OS error identified by a code. -/
structure IoErr where
  errCode : Nat
deriving DecidableEq, Repr

/-- Abstraction of `std::process::ExitStatus`. -/
inductive ExitStatus where
  | exited (code : Int)
  | signaled
deriving DecidableEq, Repr

/-- Embeds `ExitStatus::success`: true exactly when the process exited with
code zero. -/
def ExitStatus.success : ExitStatus → Bool
  | .exited c => c = 0
  | .signaled => false

/-- Embeds `ExitStatus::code`: the exit code when the process exited, `None`
when it was terminated by a signal. -/
def ExitStatus.code : ExitStatus → Option Int
  | .exited c => some c
  | .signaled => none

/-- Embeds `CommandError` from `src/util/mod.rs`. -/
inductive CommandError where
  | UnableToSpawn (e : IoErr)
  | NonZeroExitStatus (code : Option Int)
deriving DecidableEq, Repr

/-- Embeds `impl IntoResult<(), ()> for bool`. -/
def boolIntoResult (b : Bool) : Except Unit Unit :=
  if b then .ok () else .error ()

/-- Embeds `impl IntoResult<(), CommandError> for ExitStatus`:
`self.success().into_result().map_err(|_| self.code().into())`. -/
def ExitStatus.into_result (s : ExitStatus) : Except CommandError Unit :=
  match boolIntoResult s.success with
  | .ok u => .ok u
  | .error _ => .error (.NonZeroExitStatus s.code)

/-- Abstraction of `std::process::Output`: the captured stdout/stderr bytes
and exit status of a process run to completion. -/
structure Output where
  status : ExitStatus
  stdout : List Nat
  stderr : List Nat
deriving DecidableEq, Repr

/-- Embeds `impl IntoResult<Output, CommandError> for io::Result<Output>`:
a spawn failure maps to `UnableToSpawn`, then the captured status is checked
and the full output is yielded only on success. -/
def outputIntoResult (r : Except IoErr Output) : Except CommandError Output :=
  match r with
  | .error e => .error (.UnableToSpawn e)
  | .ok output =>
    match output.status.into_result with
    | .ok _ => .ok output
    | .error e => .error e

/-- Embeds `PipeError` from `src/util/mod.rs`. -/
inductive PipeError where
  | TxCommandError (e : CommandError)
  | RxCommandError (e : CommandError)
  | PipeErrorIo (e : IoErr)
deriving DecidableEq, Repr

/-- Environment for one call to `pipe`: everything the operating system
decides.  `txOutput` is the outcome of `tx_command.output()` (spawn error or
captured output), `rxSpawnErr` the outcome of spawning `rx_command` with a
piped stdin (`some e` means the spawn failed), `writeErr` the outcome of
`write_all` on the captured stdout (`some e` means the write failed), and
`rxExit` the receiving process's eventual exit status, which `pipe` never
consults. -/
structure PipeEnv where
  txOutput : Except IoErr Output
  rxSpawnErr : Option IoErr
  writeErr : Option IoErr
  rxExit : ExitStatus
deriving Repr

/-- Observable side effects of one call to `pipe`: whether the second
command's spawn was attempted, and which byte string was transferred in full
into its stdin (`none` when no complete transfer happened). -/
structure PipeTrace where
  rxSpawnAttempted : Bool
  written : Option (List Nat)
deriving DecidableEq, Repr

/-- Embeds `pipe` from `src/util/mod.rs`: run the first command capturing
its output, normalizing failure to `TxCommandError`; then spawn the second
with piped stdin, normalizing failure to `RxCommandError`; then `write_all`
the captured stdout into the second command's stdin, a failure becoming the
transfer-stage error.  The second process is never waited on. -/
def pipe (env : PipeEnv) : Except PipeError Unit × PipeTrace :=
  match outputIntoResult env.txOutput with
  | .error e => (.error (.TxCommandError e), ⟨false, none⟩)
  | .ok txOutput =>
    match env.rxSpawnErr with
    | some e => (.error (.RxCommandError (.UnableToSpawn e)), ⟨true, none⟩)
    | none =>
      match env.writeErr with
      | some e => (.error (.PipeErrorIo e), ⟨true, none⟩)
      | none => (.ok (), ⟨true, some txOutput.stdout⟩)

/-! Environment-variable model for `add_to_path`. -/

/-- The process environment as far as `add_to_path` observes it: the value of
the `PATH` variable, `none` when `PATH` is unset or not valid Unicode (the
cases where `env::var` returns an error). -/
structure ProcessEnv where
  pathVar : Option String
deriving DecidableEq, Repr

/-- Embeds `add_to_path` from `src/util/mod.rs`:
`format!("{}:{}", path, env::var("PATH").unwrap())`.  The first component of
the result is `none` exactly when the `unwrap` panics; the second component
is the process environment after the call, which the function never
mutates. -/
def add_to_path (path : String) (env : ProcessEnv) :
    Option String × ProcessEnv :=
  match env.pathVar with
  | some v => (some (path ++ ":" ++ v), env)
  | none => (none, env)

/-! Helper lemmas about the common-root search and resolution. -/

theorem common_root_go_spec (abs_src revDest : List String) :
    ∃ r, common_root_go abs_src revDest = some r ∧
      r <+: abs_src ∧ r <+: revDest.reverse := by
  induction revDest with
  | nil =>
    exact ⟨[], by simp [common_root_go], List.nil_prefix, List.nil_prefix⟩
  | cons x tl ih =>
    by_cases h : List.isPrefixOf ((x :: tl).reverse) abs_src = true
    · refine ⟨(x :: tl).reverse, ?_, List.isPrefixOf_iff_prefix.mp h,
        List.prefix_refl _⟩
      simp only [common_root_go]
      rw [if_pos h]
    · obtain ⟨r, hr, hrs, hrd⟩ := ih
      refine ⟨r, ?_, hrs, ?_⟩
      · simp only [common_root_go]
        rw [if_neg h, hr]
      · refine hrd.trans ?_
        rw [List.reverse_cons]
        exact List.prefix_append _ _

/-- The common-root search always succeeds on the component lists of two
absolute paths (they share at least the root, i.e. the empty component
list), and its result is a component-wise prefix of both inputs. -/
theorem common_root_spec (abs_src abs_dest : List String) :
    ∃ r, common_root abs_src abs_dest = some r ∧
      r <+: abs_src ∧ r <+: abs_dest := by
  have h := common_root_go_spec abs_src abs_dest.reverse
  rw [List.reverse_reverse] at h
  exact h

theorem relativize_path_spec (abs_path abs_relative_to : List String) :
    ∃ root, common_root abs_path abs_relative_to = some root ∧
      root <+: abs_path ∧ root <+: abs_relative_to ∧
      relativize_path abs_path abs_relative_to =
        some (List.replicate (abs_relative_to.drop root.length).length ".."
          ++ abs_path.drop root.length) := by
  obtain ⟨root, hcr, hs, hd⟩ := common_root_spec abs_path abs_relative_to
  refine ⟨root, hcr, hs, hd, ?_⟩
  simp only [relativize_path, hcr]
  rw [if_pos ⟨ List.isPrefixOf_iff_prefix.mpr hs,
    List.isPrefixOf_iff_prefix.mpr hd⟩]

theorem resolve_parent_segments (root dt tail : List String) :
    resolve (root ++ dt) (List.replicate dt.length ".." ++ tail)
      = resolve root tail := by
  induction dt using List.reverseRecOn with
  | nil => simp
  | append_singleton l a ih =>
    have hlen : (l ++ [a]).length = l.length + 1 := by simp
    rw [hlen, List.replicate_succ, List.cons_append]
    show resolve (root ++ (l ++ [a])) (".." :: _) = _
    rw [resolve, if_pos rfl, ← List.append_assoc, List.dropLast_concat]
    exact ih

theorem resolve_no_parent (tail : List String) : ∀ root : List String,
    ".." ∉ tail → resolve root tail = root ++ tail := by
  induction tail with
  | nil => intro root _; simp [resolve]
  | cons s rest ih =>
    intro root h
    have hs : ¬s = ".." := by
      rintro rfl
      exact h (List.mem_cons_self _ _)
    rw [resolve, if_neg hs, ih (root ++ [s]) (fun hm => h (List.mem_cons_of_mem _ hm))]
    simp

/-! Claim theorems. -/

/-- Claim C1, counterexample: for `source = /a/b/c` and `dest = /a/x/y` the
computed relative path is `../../b/c`, and resolving it against `dest`'s
PARENT directory `/a/x` yields `/b/c`, not `source`; the round-trip law as
stated (against the parent directory) fails. -/
theorem relativize_parent_resolution_counterexample :
    relativize_path ["a", "b", "c"] ["a", "x", "y"]
        = some ["..", "..", "b", "c"] ∧
      resolve ((["a", "x", "y"] : List String).dropLast) ["..", "..", "b", "c"]
        ≠ ["a", "b", "c"] := by
  decide

/-- Claim C1, amended: for every pair of absolute paths whose source has no
`..` component, resolving the relative path returned by `relativize_path`
against the DESTINATION ITSELF (treated as a directory) yields exactly the
source; the relative path is one `..` per component of the destination's
tail after the common root followed by the source's tail. -/
theorem relativize_path_roundtrip (abs_path abs_relative_to : List String)
    (h : ".." ∉ abs_path) :
    ∃ rel, relativize_path abs_path abs_relative_to = some rel ∧
      resolve abs_relative_to rel = abs_path := by
  obtain ⟨root, hcr, hs, hd, hrel⟩ := relativize_path_spec abs_path abs_relative_to
  obtain ⟨st, hst⟩ := hs
  obtain ⟨dt, hdt⟩ := hd
  have hst' : ".." ∉ st := by
    intro hm
    apply h
    rw [← hst]
    exact List.mem_append.mpr (Or.inr hm)
  refine ⟨_, hrel, ?_⟩
  rw [← hst, ← hdt, List.drop_left, List.drop_left, resolve_parent_segments]
  exact resolve_no_parent st root hst'

/-- Claim C1 witness: round trip at `source = /a/b/c`, `dest = /a/x/y`. -/
theorem relativize_path_roundtrip_witness :
    ".." ∉ (["a", "b", "c"] : List String) ∧
      ∃ rel, relativize_path ["a", "b", "c"] ["a", "x", "y"] = some rel ∧
        resolve ["a", "x", "y"] rel = ["a", "b", "c"] :=
  ⟨by decide, relativize_path_roundtrip ["a", "b", "c"] ["a", "x", "y"] (by decide)⟩

/-- Claim C2, counterexample: for `source = /a/b` and `dest = /a/b/c/d` the
code computes `../..`, not `../../../b` as the claim states (the common root
is `/a/b`, not `/a`). -/
theorem relativize_path_nested_dest_counterexample :
    relativize_path ["a", "b"] ["a", "b", "c", "d"] = some ["..", ".."] ∧
      relativize_path ["a", "b"] ["a", "b", "c", "d"]
        ≠ some ["..", "..", "..", "b"] := by
  decide

/-- Claim C2, amended: for `source = /a/b` and `dest = /a/b/c/d`,
`relativize_path` computes common root `/a/b` (the deepest prefix of `dest`
that is a prefix of `source`), hence dest tail `c/d` (2 segments) giving two
`..` segments and an empty source tail, producing exactly `../..`. -/
theorem relativize_path_nested_dest :
    common_root ["a", "b"] ["a", "b", "c", "d"] = some ["a", "b"] ∧
      relativize_path ["a", "b"] ["a", "b", "c", "d"] = some ["..", ".."] := by
  decide

/-- Claim C4: `into_result` on an exit status with code 0 yields `Ok(())`;
with nonzero code `n` it yields `Err(NonZeroExitStatus(Some(n)))`; on a
signal-terminated status it yields `Err(NonZeroExitStatus(None))`. -/
theorem into_result_exit_status_cases :
    ((ExitStatus.exited 0).into_result = .ok ()) ∧
      (∀ n : Int, n ≠ 0 →
        (ExitStatus.exited n).into_result
          = .error (.NonZeroExitStatus (some n))) ∧
      (ExitStatus.signaled.into_result = .error (.NonZeroExitStatus none)) := by
  refine ⟨rfl, ?_, rfl⟩
  intro n hn
  simp [ExitStatus.into_result, ExitStatus.success, ExitStatus.code,
    boolIntoResult, hn]

/-- Claim C4 witness: exit code 2 yields `NonZeroExitStatus(Some(2))`. -/
theorem into_result_exit_status_cases_witness :
    (ExitStatus.exited 2).into_result = .error (.NonZeroExitStatus (some 2)) :=
  into_result_exit_status_cases.2.1 2 (by decide)

/-- Claim C3: if the first command fails (e.g. exits nonzero), `pipe`
returns the first-stage error and never attempts to spawn the second; if the
first succeeds but the second fails to spawn, `pipe` returns the
second-stage error; if both stages start, the full captured stdout of the
first command is written byte-for-byte into the second command's stdin, a
write failure being returned as the distinct transfer-stage error. -/
theorem pipe_stage_errors :
    (∀ (env : PipeEnv) (e : CommandError),
        outputIntoResult env.txOutput = .error e →
        pipe env = (.error (.TxCommandError e), ⟨false, none⟩)) ∧
      (∀ (env : PipeEnv) (output : Output) (e : IoErr),
        outputIntoResult env.txOutput = .ok output →
        env.rxSpawnErr = some e →
        pipe env = (.error (.RxCommandError (.UnableToSpawn e)), ⟨true, none⟩)) ∧
      (∀ (env : PipeEnv) (output : Output),
        outputIntoResult env.txOutput = .ok output →
        env.rxSpawnErr = none →
        (env.writeErr = none →
          pipe env = (.ok (), ⟨true, some output.stdout⟩)) ∧
        (∀ e : IoErr, env.writeErr = some e →
          pipe env = (.error (.PipeErrorIo e), ⟨true, none⟩))) := by
  refine ⟨?_, ?_, ?_⟩
  · intro env e he
    simp [pipe, he]
  · intro env output e ho hr
    simp [pipe, ho, hr]
  · intro env output ho hr
    constructor
    · intro hw
      simp [pipe, ho, hr, hw]
    · intro e hw
      simp [pipe, ho, hr, hw]

/-- Claim C3 witness: the three stages at concrete environments — first
command exits with code 2; first succeeds and second fails to spawn; both
start and the bytes `[1, 2]` are transferred in full (or the write fails
with the transfer-stage error). -/
theorem pipe_stage_errors_witness :
    pipe ⟨.ok ⟨.exited 2, [9], []⟩, none, none, .exited 0⟩
        = (.error (.TxCommandError (.NonZeroExitStatus (some 2))), ⟨false, none⟩) ∧
      pipe ⟨.ok ⟨.exited 0, [1, 2], []⟩, some ⟨4⟩, none, .exited 0⟩
        = (.error (.RxCommandError (.UnableToSpawn ⟨4⟩)), ⟨true, none⟩) ∧
      pipe ⟨.ok ⟨.exited 0, [1, 2], []⟩, none, none, .exited 0⟩
        = (.ok (), ⟨true, some [1, 2]⟩) ∧
      pipe ⟨.ok ⟨.exited 0, [1, 2], []⟩, none, some ⟨5⟩, .exited 0⟩
        = (.error (.PipeErrorIo ⟨5⟩), ⟨true, none⟩) :=
  ⟨pipe_stage_errors.1 _ _ rfl,
    pipe_stage_errors.2.1 _ _ _ rfl rfl,
    (pipe_stage_errors.2.2 ⟨.ok ⟨.exited 0, [1, 2], []⟩, none, none, .exited 0⟩
      ⟨.exited 0, [1, 2], []⟩ rfl rfl).1 rfl,
    (pipe_stage_errors.2.2 ⟨.ok ⟨.exited 0, [1, 2], []⟩, none, some ⟨5⟩, .exited 0⟩
      ⟨.exited 0, [1, 2], []⟩ rfl rfl).2 ⟨5⟩ rfl⟩

/-- Claim C5: when the first command succeeds, the second spawns and the
byte transfer succeeds, `pipe` returns `Ok(())`; and `pipe`'s entire
behaviour is independent of the second process's eventual exit status, which
it never waits on or inspects. -/
theorem pipe_transfer_only :
    (∀ (env : PipeEnv) (output : Output),
        outputIntoResult env.txOutput = .ok output →
        env.rxSpawnErr = none → env.writeErr = none →
        (pipe env).1 = .ok ()) ∧
      (∀ (env : PipeEnv) (s : ExitStatus),
        pipe { env with rxExit := s } = pipe env) := by
  constructor
  · intro env output ho hr hw
    simp [pipe, ho, hr, hw]
  · intro env s
    obtain ⟨tx, rx, w, ex⟩ := env
    rfl

/-- Claim C5 witness: `pipe` succeeds although the second process exits
nonzero, and changing the second process's exit status to a signal
termination leaves the result unchanged. -/
theorem pipe_transfer_only_witness :
    (pipe ⟨.ok ⟨.exited 0, [7], []⟩, none, none, .exited 1⟩).1 = .ok () ∧
      pipe { (⟨.ok ⟨.exited 0, [7], []⟩, none, none, .exited 0⟩ : PipeEnv)
          with rxExit := .signaled }
        = pipe ⟨.ok ⟨.exited 0, [7], []⟩, none, none, .exited 0⟩ :=
  ⟨pipe_transfer_only.1 _ ⟨.exited 0, [7], []⟩ rfl rfl rfl,
    pipe_transfer_only.2 _ _⟩

/-- Claim C6: for every pair of absolute paths (which share at least the
filesystem root, the empty component list), the common-root search
terminates with a result that is a component-wise prefix of both paths, and
never reaches the fatal `unreachable!` branch (modelled by `none`). -/
theorem common_root_total (abs_src abs_dest : List String) :
    ∃ r, common_root abs_src abs_dest = some r ∧
      r <+: abs_src ∧ r <+: abs_dest :=
  common_root_spec abs_src abs_dest

/-- Claim C7: for `source = /a/b/c` and `dest = /a/x/y` the common root is
`/a` and the result is exactly `../../b/c`: one `..` per component of the
destination tail `x/y`, then the source tail `b/c`. -/
theorem relativize_path_sibling_example :
    common_root ["a", "b", "c"] ["a", "x", "y"] = some ["a"] ∧
      relativize_path ["a", "b", "c"] ["a", "x", "y"]
        = some ["..", "..", "b", "c"] := by
  decide

/-- Claim C8: relativizing any absolute path against itself yields the empty
relative path (zero `..` segments and an empty tail). -/
theorem relativize_path_self (p : List String) : relativize_path p p = some [] := by
  have hp : List.isPrefixOf p p = true :=
    List.isPrefixOf_iff_prefix.mpr ( List.prefix_refl p)
  have hcr : common_root p p = some p := by
    show common_root_go p p.reverse = some p
    cases hrev : p.reverse with
    | nil =>
      have hpnil : p = [] := by
        have h := congrArg List.reverse hrev
        simpa using h
      subst hpnil
      simp [common_root_go]
    | cons x tl =>
      have hx : (x :: tl).reverse = p := by
        rw [← hrev, List.reverse_reverse]
      simp only [common_root_go]
      rw [hx, if_pos hp]
  simp only [relativize_path, hcr]
  rw [if_pos ⟨hp, hp⟩]
  simp

/-- Claim C9: for every caller-supplied directory string and every value of
the `PATH` variable, `add_to_path` returns the directory, a colon, then the
old value, and leaves the process environment unchanged. -/
theorem add_to_path_prepends (d v : String) (env : ProcessEnv)
    (h : env.pathVar = some v) :
    add_to_path d env = (some (d ++ ":" ++ v), env) := by
  simp [add_to_path, h]

/-- Claim C9 witness: prepending `/opt/tool` to `PATH = /usr/bin`. -/
theorem add_to_path_prepends_witness :
    (⟨some "/usr/bin"⟩ : ProcessEnv).pathVar = some "/usr/bin" ∧
      add_to_path "/opt/tool" ⟨some "/usr/bin"⟩
        = (some ("/opt/tool" ++ ":" ++ "/usr/bin"), ⟨some "/usr/bin"⟩) :=
  ⟨rfl, add_to_path_prepends "/opt/tool" "/usr/bin" ⟨some "/usr/bin"⟩ rfl⟩

/-- Claim C10: when `PATH` is unset or not valid Unicode, `add_to_path`
panics (the `unwrap` on the environment read, modelled by the `none`
result) instead of returning an error value. -/
theorem add_to_path_panics_without_path_var (d : String) (env : ProcessEnv)
    (h : env.pathVar = none) :
    add_to_path d env = (none, env) := by
  simp [add_to_path, h]

/-- Claim C10 witness: the panic at a concrete unset environment. -/
theorem add_to_path_panics_without_path_var_witness :
    (⟨none⟩ : ProcessEnv).pathVar = none ∧
      add_to_path "/opt/tool" ⟨none⟩ = (none, ⟨none⟩) :=
  ⟨rfl, add_to_path_panics_without_path_var "/opt/tool" ⟨none⟩ rfl⟩

end CargoMobile
